import Mathlib

/-!
Shallow embedding of the contact-harvesting crawler (`main.py`) and proofs
about it: session persistence (`SessionManager`), email validation,
categorization and confidence scoring (`EmailValidator`), the resilient
fetcher (`fetch_with_retry`), the bounded-depth crawl
(`extract_emails_and_social` with its inner `score_page_relevance` and
`crawl_page`), and the retry coordinator (`retry_failed_websites`).

Python strings are modelled as `List Char`; Python sets and dicts are
modelled as lists (insertion order, membership by equality); Python floats
are modelled as rationals (ideal arithmetic on the literals appearing in the
source); library calls (`requests.get`, `validators.email`, `re.findall`,
`urljoin`) are oracle parameters, while the library behaviours the claims
depend on (`re.match` on `.*x.*` patterns, `urlparse().netloc`,
`str.lower`, substring tests) are modelled concretely.
-/

/-- Python strings, modelled as lists of characters. -/
abbrev PyStr := List Char

/-- `str.lower()` (ASCII case folding; the program only compares ASCII
keywords). -/
def lowerStr (s : PyStr) : PyStr := s.map Char.toLower

/-- The segment of `s` before the first newline.  Python's `.` in a regex
does not match a newline and `re.match` anchors at the start, so
`re.match(".*x.*", s)` succeeds exactly when `x` occurs inside this
segment. -/
def firstLine (s : PyStr) : PyStr := s.takeWhile (fun c => !(c == '\n'))

theorem firstLine_eq_self {s : PyStr} (h : ¬ '\n' ∈ s) : firstLine s = s := by
  induction s with
  | nil => rfl
  | cons c t ih =>
    simp only [List.mem_cons, not_or] at h
    simp only [firstLine, List.takeWhile_cons]
    have hc : (!(c == '\n')) = true := by
      simp only [Bool.not_eq_true', beq_eq_false_iff_ne]
      exact fun hcc => h.1 hcc.symm
    rw [hc]
    simp only [firstLine] at ih
    rw [if_pos rfl, ih h.2]

/-! ### SessionManager (`main.py` 64-87) -/

/-- The record persisted by `SessionManager`: the dict
`{"completed_urls": set(), "failed_urls": set(), "results": []}`.  The sets
are modelled as lists in insertion order; a `results` entry (a pickled
result dict, never inspected by the session code) is modelled as an opaque
`PyStr` token. -/
structure SessionData where
  completed_urls : List PyStr
  failed_urls : List PyStr
  results : List PyStr
deriving DecidableEq

/-- A partial update passed to `save_session`: the keys present in the
Python dict argument (`none` = key absent from the dict). -/
structure SessionUpdate where
  completed_urls : Option (List PyStr) := none
  failed_urls : Option (List PyStr) := none
  results : Option (List PyStr) := none

/-- `self.session_data.update(data)`: Python `dict.update` replaces the
stored value of each supplied key wholesale and leaves absent keys
untouched. -/
def dictUpdate (d : SessionData) (u : SessionUpdate) : SessionData where
  completed_urls := u.completed_urls.getD d.completed_urls
  failed_urls := u.failed_urls.getD d.failed_urls
  results := u.results.getD d.results

/-- The in-memory `session_data` together with the contents of the pickle
file (`none` while the file does not exist). -/
structure SessionManager where
  session_data : SessionData
  session_file : Option SessionData
deriving DecidableEq

def emptySessionData : SessionData := ⟨[], [], []⟩

/-- `SessionManager.load_session`: unpickle the file, or return the empty
default record when the file is missing. -/
def load_session (file : Option SessionData) : SessionData :=
  file.getD emptySessionData

/-- `SessionManager.save_session`: `self.session_data.update(data)` followed
by pickling the whole in-memory record to the file. -/
def SessionManager.save_session (m : SessionManager) (data : SessionUpdate) :
    SessionManager :=
  let sd := dictUpdate m.session_data data
  ⟨sd, some sd⟩

/-- `SessionManager.is_completed`. -/
def SessionManager.is_completed (m : SessionManager) (url : PyStr) : Bool :=
  m.session_data.completed_urls.contains url

/-- A manager constructed while the session file does not exist
(`load_session` hits `FileNotFoundError` and returns the default). -/
def freshSessionManager : SessionManager := ⟨load_session none, none⟩

/-! ### EmailValidator (`main.py` 104-157) -/

/-- `EmailValidator.INVALID_PATTERNS`, keeping the literal core of each
regex `.*core.*`. -/
def INVALID_PATTERNS : List PyStr :=
  [("noreply").toList, ("no-reply").toList, ("admin").toList,
   ("test").toList, ("example").toList, ("dummy").toList,
   ("webmaster").toList]

/-- `re.match(".*core.*", s)`: succeeds exactly when the literal `core`
occurs before the first newline of `s`. -/
def reDotStarMatch (core s : PyStr) : Bool := decide (core <:+: firstLine s)

/-- `EmailValidator.validate_email`.  The well-formedness test
`validators.email(email)` is third-party library code; it is the
parameter `wf`. -/
def validate_email (wf : PyStr → Bool) (email : PyStr) : Bool :=
  if !wf email then false
  else if INVALID_PATTERNS.any (fun p => reDotStarMatch p (lowerStr email))
    then false
  else true

/-- **C5.** For every email string `e` without a newline (well-formed emails
contain none), `validate_email` accepts `e` iff `e` passes the
well-formedness check and, case-insensitively, contains none of the 7
blacklisted substrings. -/
theorem validate_email_iff (wf : PyStr → Bool) (e : PyStr)
    (hnl : ¬ '\n' ∈ lowerStr e) :
    validate_email wf e = true ↔
      (wf e = true ∧ ∀ p ∈ INVALID_PATTERNS, ¬ p <:+: lowerStr e) := by
  unfold validate_email reDotStarMatch
  rw [firstLine_eq_self hnl]
  constructor
  · intro h
    by_cases hwf : wf e = true
    · refine ⟨hwf, ?_⟩
      intro p hp hinf
      rw [hwf] at h
      simp only [Bool.not_true, if_false, Bool.false_eq_true] at h
      have : INVALID_PATTERNS.any (fun p => decide (p <:+: lowerStr e)) = true := by
        rw [List.any_eq_true]
        exact ⟨p, hp, by simpa using hinf⟩
      rw [if_pos this] at h
      exact absurd h (by simp)
    · rw [Bool.not_eq_true] at hwf
      rw [hwf] at h
      simp at h
  · rintro ⟨hwf, hbl⟩
    rw [hwf]
    simp only [Bool.not_true, if_false, Bool.false_eq_true]
    have : INVALID_PATTERNS.any (fun p => decide (p <:+: lowerStr e)) = false := by
      rw [List.any_eq_false]
      intro p hp
      simpa using hbl p hp
    rw [this]
    simp

/-- Witness for C5 at a concrete input: `"info@acme.com"` with a
well-formedness oracle accepting everything. -/
theorem validate_email_iff_witness :
    validate_email (fun _ => true) (("info@acme.com").toList) = true ↔
      ((fun (_ : PyStr) => true) (("info@acme.com").toList) = true ∧
        ∀ p ∈ INVALID_PATTERNS, ¬ p <:+: lowerStr (("info@acme.com").toList)) :=
  validate_email_iff (fun _ => true) (("info@acme.com").toList) (by decide)

/-- **C1 counterexample.**  Starting from a fresh store,
`save_session({"completed_urls": {"a"}})` followed by
`save_session({"completed_urls": {"b"}})` and `load_session` yields a record
whose completed set no longer contains `"a"`: `dict.update` replaced the
whole set, so the claimed additive union fails. -/
theorem save_session_not_additive :
    ¬ ((("a").toList ∈ (load_session
          (((freshSessionManager.save_session
              ⟨some [("a").toList], none, none⟩).save_session
              ⟨some [("b").toList], none, none⟩).session_file)).completed_urls) ∧
       (("b").toList ∈ (load_session
          (((freshSessionManager.save_session
              ⟨some [("a").toList], none, none⟩).save_session
              ⟨some [("b").toList], none, none⟩).session_file)).completed_urls)) := by
  decide

/-- **C1 (amended).**  `save_session` merges at the key level only: each
field supplied in the update replaces the in-memory record's value for that
field wholesale (`dict.update`), the merged record is persisted, and fields
absent from the update are preserved.  Consequently two successive saves of
completed sets `A` then `B` leave exactly `B` as the completed set. -/
theorem save_session_overwrites (m : SessionManager) (A B : List PyStr) :
    load_session (((m.save_session ⟨some A, none, none⟩).save_session
        ⟨some B, none, none⟩).session_file) =
      ⟨B, m.session_data.failed_urls, m.session_data.results⟩ := rfl

/-- `EmailValidator.EMAIL_CATEGORIES` patterns.  Under `re.match`, the regex
`x@.*` succeeds iff the string starts with `x@`, and the catch-all `.*@.*`
iff `'@'` occurs before the first newline. -/
inductive EmailPat where
  | startsWith (p : PyStr)
  | anyAt
deriving DecidableEq

def patMatches (pat : EmailPat) (e : PyStr) : Bool :=
  match pat with
  | .startsWith p => decide (p <+: e)
  | .anyAt => (firstLine e).contains '@'

/-- `EmailValidator.EMAIL_CATEGORIES`, in dict insertion order (Python dicts
iterate in insertion order). -/
def EMAIL_CATEGORIES : List (String × EmailPat) :=
  [("info", .startsWith (("info@").toList)),
   ("contact", .startsWith (("contact@").toList)),
   ("sales", .startsWith (("sales@").toList)),
   ("support", .startsWith (("support@").toList)),
   ("hello", .startsWith (("hello@").toList)),
   ("general", .anyAt)]

/-- `EmailValidator.categorize_email`: first pattern (in dict order) whose
regex matches the lowercased email wins; no match yields `"other"`. -/
def categorize_email (email : PyStr) : String :=
  match EMAIL_CATEGORIES.find? (fun cp => patMatches cp.2 (lowerStr email)) with
  | some cp => cp.1
  | none => "other"

theorem categorize_email_eq (email : PyStr) :
    categorize_email email =
      (if ("info@").toList <+: lowerStr email then "info"
       else if ("contact@").toList <+: lowerStr email then "contact"
       else if ("sales@").toList <+: lowerStr email then "sales"
       else if ("support@").toList <+: lowerStr email then "support"
       else if ("hello@").toList <+: lowerStr email then "hello"
       else if (firstLine (lowerStr email)).contains '@' = true then "general"
       else "other") := by
  unfold categorize_email EMAIL_CATEGORIES
  by_cases h1 : ("info@").toList <+: lowerStr email
  · rw [List.find?_cons_of_pos _ (by simpa [patMatches] using h1), if_pos h1]
  · rw [List.find?_cons_of_neg _ (by simpa [patMatches] using h1), if_neg h1]
    by_cases h2 : ("contact@").toList <+: lowerStr email
    · rw [List.find?_cons_of_pos _ (by simpa [patMatches] using h2), if_pos h2]
    · rw [List.find?_cons_of_neg _ (by simpa [patMatches] using h2), if_neg h2]
      by_cases h3 : ("sales@").toList <+: lowerStr email
      · rw [List.find?_cons_of_pos _ (by simpa [patMatches] using h3), if_pos h3]
      · rw [List.find?_cons_of_neg _ (by simpa [patMatches] using h3), if_neg h3]
        by_cases h4 : ("support@").toList <+: lowerStr email
        · rw [List.find?_cons_of_pos _ (by simpa [patMatches] using h4), if_pos h4]
        · rw [List.find?_cons_of_neg _ (by simpa [patMatches] using h4), if_neg h4]
          by_cases h5 : ("hello@").toList <+: lowerStr email
          · rw [List.find?_cons_of_pos _ (by simpa [patMatches] using h5), if_pos h5]
          · rw [List.find?_cons_of_neg _ (by simpa [patMatches] using h5), if_neg h5]
            by_cases h6 : (firstLine (lowerStr email)).contains '@' = true
            · rw [List.find?_cons_of_pos _ (by simpa [patMatches] using h6), if_pos h6]
            · rw [List.find?_cons_of_neg _ (by simpa [patMatches] using h6),
                if_neg h6]
              rfl

theorem takeWhile_append_of_all {pr : Char → Bool} {p t : List Char}
    (h : ∀ c ∈ p, pr c = true) :
    (p ++ t).takeWhile pr = p ++ t.takeWhile pr := by
  induction p with
  | nil => rfl
  | cons c q ih =>
    simp only [List.cons_append, List.takeWhile_cons]
    rw [h c (by simp), if_pos rfl, ih (fun d hd => h d (by simp [hd]))]

theorem firstLine_contains_at {p s : PyStr} (hp : p <+: s) (hat : '@' ∈ p)
    (hnl : ¬ '\n' ∈ p) : (firstLine s).contains '@' = true := by
  obtain ⟨t, rfl⟩ := hp
  unfold firstLine
  rw [takeWhile_append_of_all (fun c hc => by
    simp only [Bool.not_eq_true', beq_eq_false_iff_ne]
    exact fun hcc => hnl (hcc ▸ hc))]
  simp only [List.contains, List.elem_eq_mem, List.mem_append, decide_eq_true_eq]
  exact Or.inl hat

/-- **C6.**  `categorize_email` always lands in the fixed 7-way taxonomy and
decides by first-match-wins over the ordered category patterns: a prefix
pattern `x@` wins iff it matches and no earlier one does, an email matching
only the catch-all `@` pattern is `"general"`, and an email matching no
pattern (no `@` before a newline) is `"other"`. -/
theorem categorize_email_spec (e : PyStr) :
    categorize_email e ∈
      ["info", "contact", "sales", "support", "hello", "general", "other"] ∧
    (("info@").toList <+: lowerStr e → categorize_email e = "info") ∧
    (¬ ("info@").toList <+: lowerStr e →
      ("contact@").toList <+: lowerStr e → categorize_email e = "contact") ∧
    (¬ ("info@").toList <+: lowerStr e →
      ¬ ("contact@").toList <+: lowerStr e →
      ("sales@").toList <+: lowerStr e → categorize_email e = "sales") ∧
    (¬ ("info@").toList <+: lowerStr e →
      ¬ ("contact@").toList <+: lowerStr e →
      ¬ ("sales@").toList <+: lowerStr e →
      ("support@").toList <+: lowerStr e → categorize_email e = "support") ∧
    (¬ ("info@").toList <+: lowerStr e →
      ¬ ("contact@").toList <+: lowerStr e →
      ¬ ("sales@").toList <+: lowerStr e →
      ¬ ("support@").toList <+: lowerStr e →
      ("hello@").toList <+: lowerStr e → categorize_email e = "hello") ∧
    ((∀ q ∈ [("info@").toList, ("contact@").toList, ("sales@").toList,
        ("support@").toList, ("hello@").toList], ¬ q <+: lowerStr e) →
      (firstLine (lowerStr e)).contains '@' = true →
      categorize_email e = "general") ∧
    ((firstLine (lowerStr e)).contains '@' = false →
      categorize_email e = "other") := by
  have heq := categorize_email_eq e
  refine ⟨?_, ?_, ?_, ?_, ?_, ?_, ?_, ?_⟩
  · rw [heq]; split_ifs <;> simp
  · intro h1; rw [heq, if_pos h1]
  · intro h1 h2; rw [heq, if_neg h1, if_pos h2]
  · intro h1 h2 h3; rw [heq, if_neg h1, if_neg h2, if_pos h3]
  · intro h1 h2 h3 h4; rw [heq, if_neg h1, if_neg h2, if_neg h3, if_pos h4]
  · intro h1 h2 h3 h4 h5
    rw [heq, if_neg h1, if_neg h2, if_neg h3, if_neg h4, if_pos h5]
  · intro hq hat
    rw [heq, if_neg (hq _ (by simp)), if_neg (hq _ (by simp)),
      if_neg (hq _ (by simp)), if_neg (hq _ (by simp)),
      if_neg (hq _ (by simp)), if_pos hat]
  · intro hat
    have hno : ∀ q : PyStr, '@' ∈ q → ¬ '\n' ∈ q → ¬ q <+: lowerStr e := by
      intro q hq hnl hpre
      rw [firstLine_contains_at hpre hq hnl] at hat
      exact absurd hat (by simp)
    rw [heq, if_neg (hno _ (by decide) (by decide)),
      if_neg (hno _ (by decide) (by decide)),
      if_neg (hno _ (by decide) (by decide)),
      if_neg (hno _ (by decide) (by decide)),
      if_neg (hno _ (by decide) (by decide)), if_neg (by rw [hat]; simp)]

/-- Witness for C6 at a concrete input: `"contact@x.com"` categorizes as
`"contact"` because the `info@` pattern fails and the `contact@` pattern is
the first match. -/
theorem categorize_email_spec_witness :
    categorize_email (("contact@x.com").toList) = "contact" :=
  (categorize_email_spec (("contact@x.com").toList)).2.2.1 (by decide) (by decide)

/-- `EmailValidator.score_email_confidence`; Python float literals become the
corresponding rationals. -/
def score_email_confidence (email context : PyStr) : ℚ :=
  let score : ℚ := 1/2
  let score :=
    if ("contact").toList <:+: lowerStr email ∨
        ("info").toList <:+: lowerStr email then score + 3/10
    else if ("sales").toList <:+: lowerStr email ∨
        ("hello").toList <:+: lowerStr email then score + 1/5
    else score
  let score :=
    if ("contact").toList <:+: lowerStr context then score + 1/5 else score
  min score 1

/-- **C7.**  `score_email_confidence` is the base 0.5 plus 0.3 for a
contact/info address, otherwise plus 0.2 for a sales/hello address (the two
bonuses mutually exclusive, first condition checked first), plus 0.2 when
the context contains "contact", clamped to at most 1.0; the result always
lies in [0, 1]. -/
theorem score_email_confidence_spec (e c : PyStr) :
    score_email_confidence e c =
      min ((1/2 : ℚ) +
        (if ("contact").toList <:+: lowerStr e ∨
            ("info").toList <:+: lowerStr e then 3/10
         else if ("sales").toList <:+: lowerStr e ∨
            ("hello").toList <:+: lowerStr e then 1/5
         else 0) +
        (if ("contact").toList <:+: lowerStr c then 1/5 else 0)) 1 ∧
    0 ≤ score_email_confidence e c ∧ score_email_confidence e c ≤ 1 := by
  unfold score_email_confidence
  split_ifs <;>
    refine ⟨by norm_num, ?_, ?_⟩ <;>
    · rw [min_def]
      split_ifs <;> norm_num

/-! ### Fetcher (`main.py` 256-295) -/

/-- Observable outcome of one `requests.get` call inside `fetch_with_retry`:
HTTP 200, HTTP 429, some other HTTP status, or a raised transport
exception. -/
inductive AttemptOutcome where
  | ok
  | status429
  | statusOther
  | transportError
deriving DecidableEq

/-- The `for attempt in range(1, retries + 1)` loop of `fetch_with_retry`,
accumulating the sleep durations performed, with `fuel` iterations left.
HTTP 200 returns success immediately; HTTP 429 sleeps
`base_delay * attempt * 2` and continues; any other status falls off the
`if/elif` with no sleep; a transport error sleeps
`base_delay * 2^(attempt-1) + jitter attempt` only when `attempt <
retries` (`random.uniform(0, 1)` is the oracle `jitter`). -/
def fwrGo (outcome : Nat → AttemptOutcome) (jitter : Nat → ℚ)
    (retries : Nat) (base_delay : ℚ) :
    Nat → Nat → List ℚ → Bool × List ℚ
  | _, 0, sleeps => (false, sleeps)
  | attempt, fuel + 1, sleeps =>
    match outcome attempt with
    | .ok => (true, sleeps)
    | .status429 =>
        fwrGo outcome jitter retries base_delay (attempt + 1) fuel
          (sleeps ++ [base_delay * (attempt : ℚ) * 2])
    | .statusOther =>
        fwrGo outcome jitter retries base_delay (attempt + 1) fuel sleeps
    | .transportError =>
        fwrGo outcome jitter retries base_delay (attempt + 1) fuel
          (if attempt < retries then
            sleeps ++ [base_delay * 2 ^ (attempt - 1) + jitter attempt]
          else sleeps)

/-- `EnhancedWebsiteCrawler.fetch_with_retry`, reduced to its observable
success flag and sleep trace. -/
def fetch_with_retry (outcome : Nat → AttemptOutcome) (jitter : Nat → ℚ)
    (retries : Nat) (base_delay : ℚ) : Bool × List ℚ :=
  fwrGo outcome jitter retries base_delay 1 retries []

def c3Outcome : Nat → AttemptOutcome :=
  fun a => if a = 1 then .statusOther else .ok

def c3Jitter : Nat → ℚ := fun _ => 0

/-- **C3 counterexample.**  With `retries = 2`, `base_delay = 2` and attempt
1 failing with a non-200, non-429 HTTP status, the fetcher performs *no*
sleep before attempt 2 — the claimed backoff sleep
`base_delay * 2^(1-1) + jitter` happens only on the transport-error path,
never for an HTTP error status. -/
theorem fetch_no_sleep_on_other_status :
    ¬ ((fetch_with_retry c3Outcome c3Jitter 2 2).2 =
        [2 * 2 ^ (1 - 1) + c3Jitter 1]) := by
  decide

theorem fwrGo_statusOther (jitter : Nat → ℚ) (retries : Nat)
    (base_delay : ℚ) :
    ∀ fuel attempt sleeps,
      fwrGo (fun _ => AttemptOutcome.statusOther) jitter retries base_delay
        attempt fuel sleeps = (false, sleeps) := by
  intro fuel
  induction fuel with
  | zero => intro attempt sleeps; rfl
  | succ f ih => intro attempt sleeps; rw [fwrGo]; exact ih (attempt + 1) sleeps

theorem fwrGo_transportError (jitter : Nat → ℚ) (retries : Nat)
    (base_delay : ℚ) :
    ∀ fuel attempt sleeps, attempt + fuel = retries + 1 →
      fwrGo (fun _ => AttemptOutcome.transportError) jitter retries base_delay
        attempt fuel sleeps =
      (false, sleeps ++ (List.range' attempt (fuel - 1)).map
        (fun i => base_delay * 2 ^ (i - 1) + jitter i)) := by
  intro fuel
  induction fuel with
  | zero => intro attempt sleeps _; simp [fwrGo]
  | succ f ih =>
    intro attempt sleeps h
    rw [fwrGo]
    cases f with
    | zero =>
      have ha : attempt = retries := by omega
      rw [if_neg (by omega)]
      simp [fwrGo]
    | succ f2 =>
      have ha : attempt < retries := by omega
      rw [if_pos ha]
      rw [ih (attempt + 1)
        (sleeps ++ [base_delay * 2 ^ (attempt - 1) + jitter attempt])
        (by omega)]
      simp [List.range'_succ]

theorem chain_le_backoff (base_delay : ℚ) (jitter : Nat → ℚ)
    (hb : 1 ≤ base_delay) (hj : ∀ i, 0 ≤ jitter i ∧ jitter i < 1) :
    ∀ n a, 1 ≤ a → List.Chain' (· ≤ ·) ((List.range' a n).map
      (fun i => base_delay * 2 ^ (i - 1) + jitter i)) := by
  intro n
  induction n with
  | zero => intro a _; simp
  | succ m ih =>
    intro a ha
    rw [List.range'_succ, List.map_cons, List.chain'_cons']
    refine ⟨?_, ih (a + 1) (by omega)⟩
    intro h hh
    cases m with
    | zero => simp at hh
    | succ m2 =>
      rw [List.range'_succ, List.map_cons] at hh
      simp only [List.head?_cons, Option.mem_def, Option.some.injEq] at hh
      subst hh
      have h2 : (2 : ℚ) ^ (a + 1 - 1) = 2 ^ (a - 1) * 2 := by
        have : a + 1 - 1 = (a - 1) + 1 := by omega
        rw [this, pow_succ]
      have hpow : (1 : ℚ) ≤ 2 ^ (a - 1) := one_le_pow₀ (by norm_num)
      have hba : (1 : ℚ) ≤ base_delay * 2 ^ (a - 1) := by nlinarith
      have hj1 := (hj a).2
      have hj2 := (hj (a + 1)).1
      rw [h2]
      nlinarith

/-- **C3 (amended).**  Only a *transport error* (a raised exception) at
attempt `i < retries` makes the fetcher sleep
`base_delay * 2^(i-1) + jitter_i`; a non-200, non-429 HTTP status retries
immediately with no sleep at all.  On the all-transport-error path, with
jitters in `[0,1)` and `base_delay ≥ 1` (the source default is 2), the
successive delays are non-negative and weakly increasing. -/
theorem fetch_with_retry_backoff (retries : Nat) (base_delay : ℚ)
    (jitter : Nat → ℚ) (hb : 1 ≤ base_delay)
    (hj : ∀ i, 0 ≤ jitter i ∧ jitter i < 1) :
    (fetch_with_retry (fun _ => AttemptOutcome.statusOther) jitter retries
      base_delay).2 = [] ∧
    (fetch_with_retry (fun _ => AttemptOutcome.transportError) jitter retries
      base_delay).2 =
      (List.range' 1 (retries - 1)).map
        (fun i => base_delay * 2 ^ (i - 1) + jitter i) ∧
    (∀ d ∈ (fetch_with_retry (fun _ => AttemptOutcome.transportError) jitter
        retries base_delay).2, 0 ≤ d) ∧
    List.Chain' (· ≤ ·)
      ((fetch_with_retry (fun _ => AttemptOutcome.transportError) jitter
        retries base_delay).2) := by
  have h1 : (fetch_with_retry (fun _ => AttemptOutcome.statusOther) jitter
      retries base_delay).2 = [] := by
    unfold fetch_with_retry
    rw [fwrGo_statusOther]
  have h2 : (fetch_with_retry (fun _ => AttemptOutcome.transportError) jitter
      retries base_delay).2 =
      (List.range' 1 (retries - 1)).map
        (fun i => base_delay * 2 ^ (i - 1) + jitter i) := by
    unfold fetch_with_retry
    rw [fwrGo_transportError jitter retries base_delay retries 1 [] (by omega)]
    simp
  refine ⟨h1, h2, ?_, ?_⟩
  · intro d hd
    rw [h2] at hd
    obtain ⟨i, hi, rfl⟩ := List.mem_map.mp hd
    have := (hj i).1
    positivity
  · rw [h2]
    exact chain_le_backoff base_delay jitter hb hj (retries - 1) 1 (by omega)

/-- Witness for C3 (amended) at `retries = 3`, `base_delay = 2`, zero
jitter. -/
theorem fetch_with_retry_backoff_witness :
    (fetch_with_retry (fun _ => AttemptOutcome.statusOther) (fun _ => 0) 3
      2).2 = [] ∧
    (fetch_with_retry (fun _ => AttemptOutcome.transportError) (fun _ => 0) 3
      2).2 =
      (List.range' 1 (3 - 1)).map
        (fun i => 2 * 2 ^ (i - 1) + (fun (_ : Nat) => (0 : ℚ)) i) ∧
    (∀ d ∈ (fetch_with_retry (fun _ => AttemptOutcome.transportError)
        (fun _ => 0) 3 2).2, (0 : ℚ) ≤ d) ∧
    List.Chain' (· ≤ ·)
      ((fetch_with_retry (fun _ => AttemptOutcome.transportError)
        (fun _ => 0) 3 2).2) :=
  fetch_with_retry_backoff 3 2 (fun _ => 0) (by norm_num)
    (fun _ => by norm_num)

/-! ### RetryCoordinator (`main.py` 751-785) -/

/-- One step of Python `dict.update`: replace the value of an existing key
in place, or append a new key. -/
def assocSet (l : List (String × PyStr)) (k : String) (v : PyStr) :
    List (String × PyStr) :=
  if l.any (fun p => p.1 == k) then
    l.map (fun p => if p.1 == k then (k, v) else p)
  else l ++ [(k, v)]

/-- Python `old.update(new)` on a string-keyed dict (insertion order). -/
def assocUpdate (old new : List (String × PyStr)) : List (String × PyStr) :=
  new.foldl (fun acc kv => assocSet acc kv.1 kv.2) old

/-- The fields of `BusinessData` that `retry_failed_websites` reads or
writes. -/
structure BizRecord where
  website : Option PyStr
  emails : List PyStr
  social_media : List (String × PyStr)
  status : String
  confidence_score : ℚ
deriving DecidableEq

/-- The in-place merge applied to the matched record: `emails.extend`,
`social_media.update`, status `"Retry successful"`, confidence
`min(old + 0.3, 1.0)`. -/
def mergeRetry (r : BizRecord) (es : List PyStr)
    (sm : List (String × PyStr)) : BizRecord :=
  { r with
    emails := r.emails ++ es
    social_media := assocUpdate r.social_media sm
    status := ("Retry successful")
    confidence_score := min (r.confidence_score + 3/10) 1 }

/-- The `for result in results: if result.website == site: ...; break` loop:
merge into the first matching record only. -/
def updateFirstMatch (site : PyStr) (es : List PyStr)
    (sm : List (String × PyStr)) : List BizRecord → List BizRecord
  | [] => []
  | r :: rs =>
    if r.website == some site then mergeRetry r es sm :: rs
    else r :: updateFirstMatch site es sm rs

/-- Python `set(l)` as used here: the distinct elements of `l` (modelled in
first-occurrence order; the merge below is keyed by site so the iteration
order of the set does not affect the result). -/
def pyDedup (l : List PyStr) : List PyStr :=
  l.foldl (fun acc x => if acc.contains x then acc else acc ++ [x]) []

/-- `EnhancedBusinessScraper.retry_failed_websites`.  `retryRes site` is the
oracle for `future.result(timeout=30)` on
`extract_emails_and_social(site, max_pages=3)`: `none` models a timeout or
exception (caught and skipped), `some (emails, social)` its value. -/
def retry_failed_websites
    (retryRes : PyStr → Option (List PyStr × List (String × PyStr)))
    (failed : List PyStr) (results : List BizRecord) : List BizRecord :=
  if failed = [] then results
  else
    (pyDedup failed).foldl (fun acc site =>
      match retryRes site with
      | some pr =>
          if pr.1 ≠ [] ∨ pr.2 ≠ [] then updateFirstMatch site pr.1 pr.2 acc
          else acc
      | none => acc) results

def c4Site : PyStr := ("http://w.example").toList

def c4Email : PyStr := ("a@x.com").toList

def c4Rec : BizRecord :=
  ⟨some c4Site, [c4Email], [], ("Data extracted"), 1/2⟩

def c4RR : PyStr → Option (List PyStr × List (String × PyStr)) :=
  fun s => if s = c4Site then some ([c4Email], []) else none

/-- **C4 counterexample.**  A record already holding `a@x.com` whose retry
recovers the same `a@x.com` ends with the email list
`[a@x.com, a@x.com]`: `result.emails.extend(emails)` appends, so the
recovered emails are *not* combined by union (a union would leave the
single-element set). -/
theorem retry_emails_extend_not_union :
    (retry_failed_websites c4RR [c4Site, c4Site] [c4Rec]).map
        (fun r => r.emails) = [[c4Email, c4Email]] ∧
    ¬ ((retry_failed_websites c4RR [c4Site, c4Site] [c4Rec]).map
        (fun r => r.emails) = [[c4Email]]) := by
  constructor <;> decide

theorem pyDedup_pair (s : PyStr) : pyDedup [s, s] = [s] := by
  simp [pyDedup]

theorem updateFirstMatch_append (site : PyStr) (es : List PyStr)
    (sm : List (String × PyStr)) (pre post : List BizRecord) (r : BizRecord)
    (hr : r.website = some site) (hpre : ∀ q ∈ pre, q.website ≠ some site) :
    updateFirstMatch site es sm (pre ++ r :: post) =
      pre ++ mergeRetry r es sm :: post := by
  induction pre with
  | nil =>
    simp only [List.nil_append, updateFirstMatch]
    rw [if_pos (by simp [hr])]
  | cons q qs ih =>
    simp only [List.cons_append, updateFirstMatch]
    rw [if_neg (by simpa using hpre q (by simp))]
    rw [List.append_eq, ih (fun x hx => hpre x (by simp [hx]))]

/-- **C4 (amended).**  `retry_failed_websites` deduplicates the failed-URL
list before dispatch (a doubled site is retried and merged once), and for a
retried site whose retry yields non-empty data it rewrites the *first*
record whose website field equals the site: the recovered emails are
*appended* to the record's email list (`extend`, which can duplicate
existing entries — not a union), social-media entries are overlaid, the
status becomes "Retry successful", and the confidence score becomes
`min(old + 0.3, 1.0)`; all other records are untouched. -/
theorem retry_failed_websites_merge
    (retryRes : PyStr → Option (List PyStr × List (String × PyStr)))
    (site : PyStr) (es : List PyStr) (sm : List (String × PyStr))
    (pre post : List BizRecord) (r : BizRecord)
    (hr : r.website = some site)
    (hpre : ∀ q ∈ pre, q.website ≠ some site)
    (hres : retryRes site = some (es, sm))
    (hne : es ≠ [] ∨ sm ≠ []) :
    retry_failed_websites retryRes [site, site] (pre ++ r :: post) =
      pre ++ mergeRetry r es sm :: post := by
  unfold retry_failed_websites
  rw [if_neg (by simp), pyDedup_pair]
  simp only [List.foldl_cons, List.foldl_nil, hres]
  rw [if_pos (by simpa using hne)]
  exact updateFirstMatch_append site es sm pre post r hr hpre

/-- Witness for C4 (amended) at a concrete input. -/
theorem retry_failed_websites_merge_witness :
    retry_failed_websites c4RR [c4Site, c4Site] ([] ++ c4Rec :: []) =
      [] ++ mergeRetry c4Rec [c4Email] [] :: [] :=
  retry_failed_websites_merge c4RR c4Site [c4Email] [] [] [] c4Rec
    (by decide) (by decide) (by decide) (by decide)

/-! ### URL parsing and link prioritization (`main.py` 297-373) -/

/-- Characters allowed in a URL scheme after the first letter
(`urllib.parse`). -/
def isSchemeChar (c : Char) : Bool :=
  c.isAlpha || c.isDigit || c == '+' || c == '-' || c == '.'

/-- `urlparse(s).netloc`, modelled for the URL shapes the crawler sees:
when `s` is `scheme "://" rest` with a valid scheme (letter first, then
letters/digits/`+`/`-`/`.`), or starts with `"//"`, the netloc is `rest`
up to the first `/`, `?` or `#`; otherwise the netloc is empty. -/
def urlparse_netloc (s : PyStr) : PyStr :=
  let pre := s.takeWhile (fun c => !(c == ':'))
  let post := s.drop pre.length
  if pre ≠ [] ∧ (pre.headD ' ').isAlpha = true ∧
      (∀ c ∈ pre, isSchemeChar c = true) ∧ (("://").toList <+: post) then
    (post.drop 3).takeWhile (fun c => !(c == '/' || c == '?' || c == '#'))
  else if ("//").toList <+: s then
    (s.drop 2).takeWhile (fun c => !(c == '/' || c == '?' || c == '#'))
  else []

/-- The inner `score_page_relevance(page_url, content)` of
`extract_emails_and_social`: +3 for contact/about/team in the URL, +2 for
support/help/reach in the URL, +2 for "contact us"/"get in touch" in the
content, +1 for `'@'` in the (raw) content; cumulative. -/
def score_page_relevance (page_url content : PyStr) : Int :=
  let page_lower := lowerStr page_url
  let content_lower := lowerStr content
  let score : Int := 0
  let score :=
    if (("contact").toList <:+: page_lower) ∨
        (("about").toList <:+: page_lower) ∨
        (("team").toList <:+: page_lower) then score + 3 else score
  let score :=
    if (("support").toList <:+: page_lower) ∨
        (("help").toList <:+: page_lower) ∨
        (("reach").toList <:+: page_lower) then score + 2 else score
  let score :=
    if (("contact us").toList <:+: content_lower) ∨
        (("get in touch").toList <:+: content_lower) then score + 2
    else score
  let score := if '@' ∈ content then score + 1 else score
  score

/-- Lexicographic `<=` on Python strings (character by character). -/
def pyStrLe : PyStr → PyStr → Bool
  | [], _ => true
  | _ :: _, [] => false
  | a :: as, b :: bs => if a < b then true else if b < a then false else pyStrLe as bs

theorem pyStrLe_total : ∀ x y : PyStr, pyStrLe x y = true ∨ pyStrLe y x = true := by
  intro x
  induction x with
  | nil => intro y; left; rfl
  | cons a as ih =>
    intro y
    cases y with
    | nil => right; rfl
    | cons b bs =>
      rcases lt_trichotomy a b with h | h | h
      · left; simp [pyStrLe, h]
      · subst h
        rcases ih bs with h2 | h2
        · left; simp [pyStrLe, h2]
        · right; simp [pyStrLe, h2]
      · right; simp [pyStrLe, h]

theorem pyStrLe_trans :
    ∀ x y z : PyStr, pyStrLe x y = true → pyStrLe y z = true →
      pyStrLe x z = true := by
  intro x
  induction x with
  | nil => intro y z _ _; rfl
  | cons a as ih =>
    intro y z h1 h2
    cases y with
    | nil => simp [pyStrLe] at h1
    | cons b bs =>
      cases z with
      | nil => simp [pyStrLe] at h2
      | cons c cs =>
        simp only [pyStrLe] at h1 h2 ⊢
        by_cases hab : a < b
        · by_cases hbc : b < c
          · rw [if_pos (lt_trans hab hbc)]
          · by_cases hcb : c < b
            · rw [if_neg hbc, if_pos hcb] at h2
              exact absurd h2 (by simp)
            · have hbce : c = b := le_antisymm (not_lt.mp hbc) (not_lt.mp hcb)
              subst hbce
              rw [if_pos hab]
        · by_cases hba : b < a
          · rw [if_neg hab, if_pos hba] at h1
            exact absurd h1 (by simp)
          · have habe : a = b := le_antisymm (not_lt.mp hba) (not_lt.mp hab)
            subst habe
            rw [if_neg (lt_irrefl a), if_neg (lt_irrefl a)] at h1
            by_cases hac : a < c
            · rw [if_pos hac]
            · rw [if_neg hac] at h2 ⊢
              by_cases hca : c < a
              · rw [if_pos hca] at h2
                exact absurd h2 (by simp)
              · rw [if_neg hca] at h2 ⊢
                exact ih bs cs h1 h2

/-- Descending Python tuple order on `(score, link)` pairs, as produced by
`scored_links.sort(reverse=True)`: `x` may come before `y`. -/
def linkGeB (x y : Int × PyStr) : Bool :=
  if y.1 < x.1 then true else if x.1 < y.1 then false else pyStrLe y.2 x.2

def linkDesc (x y : Int × PyStr) : Prop := linkGeB x y = true

instance : DecidableRel linkDesc := fun x y => by
  unfold linkDesc
  infer_instance

instance : IsTotal (Int × PyStr) linkDesc where
  total x y := by
    unfold linkDesc linkGeB
    rcases lt_trichotomy x.1 y.1 with h | h | h
    · right; rw [if_pos h]
    · rcases pyStrLe_total y.2 x.2 with h2 | h2
      · left
        rw [if_neg (by omega), if_neg (by omega)]
        exact h2
      · right
        rw [if_neg (by omega), if_neg (by omega)]
        exact h2
    · left; rw [if_pos h]

instance : IsTrans (Int × PyStr) linkDesc where
  trans x y z h1 h2 := by
    unfold linkDesc linkGeB at h1 h2 ⊢
    by_cases hyx : y.1 < x.1
    · by_cases hzy : z.1 < y.1
      · rw [if_pos (lt_trans hzy hyx)]
      · by_cases hyz : y.1 < z.1
        · rw [if_neg hzy, if_pos hyz] at h2
          exact absurd h2 (by simp)
        · rw [if_pos (by omega)]
    · by_cases hxy : x.1 < y.1
      · rw [if_neg hyx, if_pos hxy] at h1
        exact absurd h1 (by simp)
      · rw [if_neg hyx, if_neg hxy] at h1
        by_cases hzy : z.1 < y.1
        · rw [if_pos (by omega)]
        · by_cases hyz : y.1 < z.1
          · rw [if_neg hzy, if_pos hyz] at h2
            exact absurd h2 (by simp)
          · rw [if_neg hzy, if_neg hyz] at h2
            rw [if_neg (by omega), if_neg (by omega)]
            exact pyStrLe_trans z.2 y.2 x.2 h2 h1

theorem linkDesc_fst_le {x y : Int × PyStr} (h : linkDesc x y) : y.1 ≤ x.1 := by
  unfold linkDesc linkGeB at h
  by_cases h1 : y.1 < x.1
  · exact le_of_lt h1
  · by_cases h2 : x.1 < y.1
    · rw [if_neg h1, if_pos h2] at h
      exact absurd h (by simp)
    · omega

/-- The eligibility filter of `crawl_page` on an absolute candidate link:
same netloc as the crawl root, `startswith("http")`, not visited. -/
def eligibleLink (domain : PyStr) (visited : List PyStr) (l : PyStr) : Bool :=
  decide (urlparse_netloc l = domain ∧ (("http").toList <+: l) ∧ ¬ l ∈ visited)

/-- The link-selection step at the end of `crawl_page`: filter the candidate
absolute links, score each with `score_page_relevance(link, "")`, sort the
`(score, link)` pairs descending (`sort(reverse=True)`; `insertionSort` is
stable, like Python's sort, so the result agrees with the source), take the
first 3, and keep those with score > 0 — exactly the links the loop
recurses into, in order. -/
def selectLinks (domain : PyStr) (visited : List PyStr)
    (links : List PyStr) : List (Int × PyStr) :=
  let scored := (links.filter (eligibleLink domain visited)).map
    (fun l => (score_page_relevance l [], l))
  ((scored.insertionSort linkDesc).take 3).filter (fun p => decide (0 < p.1))

/-! ### CrawlSession (`main.py` 297-381) -/

/-- What the crawler extracts from one successfully fetched page, i.e. the
oracle results of the `re.findall`/`SocialMediaExtractor`/`urljoin` library
calls on its content: the email-regex candidates, the social-media mapping,
and the `urljoin(page_url, href)` absolute forms of the `href` matches. -/
structure FetchedPage where
  emails : List PyStr
  social : List (String × PyStr)
  absLinks : List PyStr
deriving DecidableEq

/-- Environment of one crawl: `fetch url` is the outcome of
`fetch_with_retry(url)` (`none` = all retries exhausted) and `wf` is
`validators.email`. -/
structure CrawlEnv where
  fetch : PyStr → Option FetchedPage
  wf : PyStr → Bool

/-- The mutable state captured by the closures in
`extract_emails_and_social`, plus the crawler-level `failed_websites` list
appended to by `fetch_with_retry`, plus `fetchLog`, the observation of the
successive `fetch_with_retry` calls (one per page actually touched). -/
structure CrawlSt where
  visited : List PyStr
  emails : List PyStr
  social_media : List (String × PyStr)
  fetchLog : List PyStr
  failed : List PyStr
deriving DecidableEq

/-- Python `set.update(xs)` on a set modelled as an insertion-ordered
duplicate-free list. -/
def setUpdate (s : List PyStr) (xs : List PyStr) : List PyStr :=
  xs.foldl (fun a e => if a.contains e then a else a ++ [e]) s

/-- The inner `crawl_page(page_url, depth)`.  `fuel` is a structural bound
kept equal to `maxPages - depth + 1`: it is positive whenever
`depth ≤ maxPages`, so the `fuel = 0` branch is unreachable from
`extract_emails_and_social` (the source guard `depth >= max_pages` always
fires first) and the model follows the source exactly: return if the depth
budget is reached or the page is visited; mark visited; fetch (on failure
record the page in `failed_websites` and abandon the branch); merge
validated emails and social links; recurse in order into
`selectLinks` (the top-3 positive-score same-domain unvisited links). -/
def crawlPage (env : CrawlEnv) (domain : PyStr) (maxPages : Nat) :
    Nat → Nat → PyStr → CrawlSt → CrawlSt
  | 0, _, _, st => st
  | fuel + 1, depth, page_url, st =>
    if maxPages ≤ depth ∨ st.visited.contains page_url = true then st
    else
      let st1 : CrawlSt :=
        { st with
          visited := st.visited ++ [page_url]
          fetchLog := st.fetchLog ++ [page_url] }
      match env.fetch page_url with
      | none => { st1 with failed := st1.failed ++ [page_url] }
      | some page =>
        let st2 : CrawlSt :=
          { st1 with
            emails := setUpdate st1.emails
              (page.emails.filter (fun e => validate_email env.wf e))
            social_media := assocUpdate st1.social_media page.social }
        ((selectLinks domain st2.visited page.absLinks).map
            (fun p => p.2)).foldl
          (fun acc l => crawlPage env domain maxPages fuel (depth + 1) l acc)
          st2

/-- The scraper-level state read and written by
`extract_emails_and_social`. -/
structure ScraperSt where
  manager : SessionManager
  failed_websites : List PyStr
deriving DecidableEq

/-- The value and side effects of one `extract_emails_and_social` call. -/
structure ExtractResult where
  bundle : List PyStr × List (String × PyStr)
  state : ScraperSt
  fetchLog : List PyStr
deriving DecidableEq

/-- `EnhancedWebsiteCrawler.extract_emails_and_social(url, max_pages)`:
return the empty bundle at once when the session store reports `url`
completed; otherwise crawl from the root at depth 0, then
`save_session({"completed_urls": {url}})`, and return the collected
emails (as a list) and social-media mapping. -/
def extract_emails_and_social (env : CrawlEnv) (url : PyStr)
    (maxPages : Nat) (s : ScraperSt) : ExtractResult :=
  if s.manager.is_completed url = true then ⟨([], []), s, []⟩
  else
    let st := crawlPage env (urlparse_netloc url) maxPages (maxPages + 1) 0
      url ⟨[], [], [], [], s.failed_websites⟩
    ⟨(st.emails, st.social_media),
     ⟨s.manager.save_session ⟨some [url], none, none⟩, st.failed⟩,
     st.fetchLog⟩

def c2Env : CrawlEnv :=
  ⟨fun _ => some ⟨[("x@y.co").toList], [], [("http://c/contact").toList]⟩,
   fun _ => true⟩

def c2Url : PyStr := ("http://c/").toList

def c2Start : ScraperSt := ⟨freshSessionManager, []⟩

/-- **C2 counterexample.**  With a page budget of 0 and a root URL that is
not completed (and would fetch successfully), the crawl performs *no*
fetch at all — not the one root fetch the claim asserts: the guard
`depth >= max_pages` fires at depth 0 before anything is fetched. -/
theorem crawl_budget_zero_cex :
    ¬ ((extract_emails_and_social c2Env c2Url 0 c2Start).fetchLog =
        [c2Url]) := by
  decide

/-- **C2 (amended).**  For every root URL not already marked completed,
`extract_emails_and_social(url, max_pages=0)` touches *no* page at all:
zero fetches are performed (the root is not fetched), no link is followed,
the returned bundle is empty, and no failure is recorded. -/
theorem extract_budget_zero (env : CrawlEnv) (url : PyStr) (s : ScraperSt)
    (h : s.manager.is_completed url = false) :
    (extract_emails_and_social env url 0 s).fetchLog = [] ∧
    (extract_emails_and_social env url 0 s).bundle = ([], []) ∧
    (extract_emails_and_social env url 0 s).state.failed_websites =
      s.failed_websites := by
  unfold extract_emails_and_social
  rw [h]
  simp only [Bool.false_eq_true, if_false]
  refine ⟨rfl, rfl, rfl⟩

/-- Witness for C2 (amended) at a concrete input. -/
theorem extract_budget_zero_witness :
    (extract_emails_and_social c2Env c2Url 0 c2Start).fetchLog = [] ∧
    (extract_emails_and_social c2Env c2Url 0 c2Start).bundle = ([], []) ∧
    (extract_emails_and_social c2Env c2Url 0 c2Start).state.failed_websites =
      c2Start.failed_websites :=
  extract_budget_zero c2Env c2Url c2Start (by decide)

/-- **C9.**  For every root URL not already marked completed,
`extract_emails_and_social` records that URL in the session store's
completed set (in memory and persisted) before returning — even when the
root fetch exhausts all retries and fails (any positive page budget), in
which case the returned bundle is empty and the URL is simultaneously
recorded in the `failed_websites` list; and a subsequent call for the same
URL against the resulting store is the empty-bundle no-op. -/
theorem extract_marks_completed (env : CrawlEnv) (url : PyStr)
    (maxPages : Nat) (s : ScraperSt)
    (h : s.manager.is_completed url = false) :
    url ∈ (extract_emails_and_social env url maxPages
        s).state.manager.session_data.completed_urls ∧
    url ∈ (load_session (extract_emails_and_social env url maxPages
        s).state.manager.session_file).completed_urls ∧
    (1 ≤ maxPages → env.fetch url = none →
      (extract_emails_and_social env url maxPages s).bundle = ([], []) ∧
      url ∈ (extract_emails_and_social env url maxPages
        s).state.failed_websites) ∧
    extract_emails_and_social env url maxPages
        (extract_emails_and_social env url maxPages s).state =
      ⟨([], []), (extract_emails_and_social env url maxPages s).state, []⟩ := by
  refine ⟨?_, ?_, ?_, ?_⟩
  · simp [extract_emails_and_social, h, SessionManager.save_session,
      dictUpdate]
  · simp [extract_emails_and_social, h, SessionManager.save_session,
      dictUpdate, load_session]
  · intro hm hf
    obtain ⟨m, rfl⟩ : ∃ m, maxPages = m + 1 := ⟨maxPages - 1, by omega⟩
    have hstep : crawlPage env (urlparse_netloc url) (m + 1) (m + 1 + 1) 0
        url ⟨[], [], [], [], s.failed_websites⟩ =
        ⟨[url], [], [], [url], s.failed_websites ++ [url]⟩ := by
      rw [crawlPage]
      rw [if_neg (by simp)]
      simp [hf]
    simp [extract_emails_and_social, h, hstep]
  · have h' : ¬ url ∈ s.manager.session_data.completed_urls := by
      simpa [SessionManager.is_completed] using h
    have hstate : ((extract_emails_and_social env url maxPages
        s).state).manager.is_completed url = true := by
      simp [extract_emails_and_social, h, h', SessionManager.save_session,
        dictUpdate, SessionManager.is_completed]
    have hgen : ∀ s2 : ScraperSt, s2.manager.is_completed url = true →
        extract_emails_and_social env url maxPages s2 =
          ⟨([], []), s2, []⟩ := by
      intro s2 h2
      simp [extract_emails_and_social, h2]
    exact hgen _ hstate

def c9Env : CrawlEnv := ⟨fun _ => none, fun _ => true⟩

def c9Url : PyStr := ("http://fail.example").toList

def c9Start : ScraperSt := ⟨freshSessionManager, []⟩

/-- Witness for C9 at a concrete input: a root whose every fetch fails,
page budget 1, fresh store. -/
theorem extract_marks_completed_witness :
    c9Url ∈ (extract_emails_and_social c9Env c9Url 1
        c9Start).state.manager.session_data.completed_urls ∧
    c9Url ∈ (load_session (extract_emails_and_social c9Env c9Url 1
        c9Start).state.manager.session_file).completed_urls ∧
    (1 ≤ 1 → c9Env.fetch c9Url = none →
      (extract_emails_and_social c9Env c9Url 1 c9Start).bundle = ([], []) ∧
      c9Url ∈ (extract_emails_and_social c9Env c9Url 1
        c9Start).state.failed_websites) ∧
    extract_emails_and_social c9Env c9Url 1
        (extract_emails_and_social c9Env c9Url 1 c9Start).state =
      ⟨([], []), (extract_emails_and_social c9Env c9Url 1 c9Start).state,
        []⟩ :=
  extract_marks_completed c9Env c9Url 1 c9Start (by decide)

theorem mem_selectLinks {domain : PyStr} {visited links : List PyStr}
    {p : Int × PyStr} (hp : p ∈ selectLinks domain visited links) :
    p.2 ∈ links ∧ urlparse_netloc p.2 = domain ∧ (("http").toList <+: p.2) ∧
    ¬ p.2 ∈ visited ∧ p.1 = score_page_relevance p.2 [] ∧ 0 < p.1 := by
  unfold selectLinks at hp
  rw [List.mem_filter] at hp
  obtain ⟨htake, hpos⟩ := hp
  have hsorted := List.mem_of_mem_take htake
  rw [List.mem_insertionSort] at hsorted
  rw [List.mem_map] at hsorted
  obtain ⟨l, hl, rfl⟩ := hsorted
  rw [List.mem_filter] at hl
  obtain ⟨hmem, helig⟩ := hl
  unfold eligibleLink at helig
  rw [decide_eq_true_eq] at helig
  obtain ⟨h1, h2, h3⟩ := helig
  exact ⟨hmem, h1, h2, h3, rfl, by simpa using hpos⟩

theorem selectLinks_countP {domain : PyStr} {visited links : List PyStr}
    {p : Int × PyStr} (hp : p ∈ selectLinks domain visited links) :
    (links.filter (eligibleLink domain visited)).countP
      (fun l => decide (p.1 < score_page_relevance l [])) ≤ 2 := by
  unfold selectLinks at hp
  rw [List.mem_filter] at hp
  obtain ⟨htake, _⟩ := hp
  set scored := (links.filter (eligibleLink domain visited)).map
    (fun l => (score_page_relevance l [], l)) with hscored
  set sorted := scored.insertionSort linkDesc with hsortdef
  obtain ⟨s1, s2, hsplit⟩ := List.append_of_mem htake
  have hlen1 : s1.length ≤ 2 := by
    have hl1 := congrArg List.length hsplit
    rw [List.length_take, List.length_append, List.length_cons] at hl1
    have hl2 : min 3 sorted.length ≤ 3 := min_le_left _ _
    omega
  have hfull : sorted = s1 ++ p :: (s2 ++ sorted.drop 3) := by
    conv_lhs => rw [← List.take_append_drop 3 sorted]
    rw [hsplit]
    simp [List.append_assoc]
  have hsort : List.Sorted linkDesc sorted :=
    List.sorted_insertionSort linkDesc scored
  have hpw : List.Pairwise linkDesc (s1 ++ p :: (s2 ++ sorted.drop 3)) := by
    rw [← hfull]; exact hsort
  obtain ⟨_, hpw2, _⟩ := List.pairwise_append.mp hpw
  rw [List.pairwise_cons] at hpw2
  obtain ⟨hrel, _⟩ := hpw2
  have hc0 : (p :: (s2 ++ sorted.drop 3)).countP
      (fun q => decide (p.1 < q.1)) = 0 := by
    rw [List.countP_eq_zero]
    intro q hq
    rcases List.mem_cons.mp hq with hqp | hq2
    · subst hqp; simp
    · have hle := linkDesc_fst_le (hrel q hq2)
      simp only [decide_eq_true_eq]
      omega
  have hcs : sorted.countP (fun q => decide (p.1 < q.1)) ≤ 2 := by
    rw [hfull, List.countP_append, hc0]
    have := List.countP_le_length (l := s1)
      (p := fun q => decide (p.1 < q.1))
    omega
  have hperm : sorted.countP (fun q => decide (p.1 < q.1)) =
      scored.countP (fun q => decide (p.1 < q.1)) :=
    (List.perm_insertionSort linkDesc scored).countP_eq _
  rw [hperm, hscored, List.countP_map] at hcs
  simpa [Function.comp] using hcs

/-- **C8 counterexample.**  The candidate link `httpx://c/contact` (scheme
`httpx`, produced verbatim by `urljoin` from an absolute `href`) has netloc
`c`, passes `startswith("http")`, is unvisited and scores 3, so the crawler
queues it — yet it is not an absolute http(s) URL. -/
def isAbsoluteHttpUrl (l : PyStr) : Bool :=
  decide ((("http://").toList <+: l) ∨ (("https://").toList <+: l))

def c8Link : PyStr := ("httpx://c/contact").toList

def c8Domain : PyStr := ("c").toList

theorem queued_link_not_http_cex :
    ((3 : Int), c8Link) ∈ selectLinks c8Domain [] [c8Link] ∧
    isAbsoluteHttpUrl c8Link = false := by
  constructor <;> decide

/-- **C8 (amended).**  Every link queued for the next depth level satisfies:
its netloc equals the crawl root's netloc, it *begins with* `"http"` (the
code's `startswith("http")` — weaker than being an absolute http(s) URL),
it is not in the visited set, and its relevance score is strictly positive;
at most 3 links are queued per page, and each queued link is outscored by
at most 2 eligible candidates (i.e. only the highest-scored links are
queued). -/
theorem selectLinks_spec (domain : PyStr) (visited links : List PyStr)
    (p : Int × PyStr) (hp : p ∈ selectLinks domain visited links) :
    urlparse_netloc p.2 = domain ∧ (("http").toList <+: p.2) ∧
    ¬ p.2 ∈ visited ∧ 0 < p.1 ∧ p.1 = score_page_relevance p.2 [] ∧
    (selectLinks domain visited links).length ≤ 3 ∧
    (links.filter (eligibleLink domain visited)).countP
      (fun l => decide (p.1 < score_page_relevance l [])) ≤ 2 := by
  obtain ⟨_, h1, h2, h3, h4, h5⟩ := mem_selectLinks hp
  refine ⟨h1, h2, h3, h5, h4, ?_, selectLinks_countP hp⟩
  unfold selectLinks
  refine le_trans (List.length_filter_le _ _) ?_
  rw [List.length_take]
  exact min_le_left _ _

def c8wDomain : PyStr := ("d").toList

def c8wLink : PyStr := ("http://d/about").toList

/-- Witness for C8 (amended) at a concrete input. -/
theorem selectLinks_spec_witness :
    urlparse_netloc ((3 : Int), c8wLink).2 = c8wDomain ∧
    (("http").toList <+: ((3 : Int), c8wLink).2) ∧
    ¬ ((3 : Int), c8wLink).2 ∈ ([] : List PyStr) ∧
    (0 : Int) < ((3 : Int), c8wLink).1 ∧
    ((3 : Int), c8wLink).1 = score_page_relevance ((3 : Int), c8wLink).2 [] ∧
    (selectLinks c8wDomain [] [c8wLink]).length ≤ 3 ∧
    ([c8wLink].filter (eligibleLink c8wDomain [])).countP
      (fun l => decide (((3 : Int), c8wLink).1 <
        score_page_relevance l [])) ≤ 2 :=
  selectLinks_spec c8wDomain [] [c8wLink] (3, c8wLink) (by decide)

/-- **C10.**  Inside the crawl, candidate links are always scored with an
empty content string (`score_page_relevance(abs_link, "")`), so every
queued link's score is exactly the URL-keyword score — +3 for
contact/about/team, +2 for support/help/reach — and the content-text rules
contribute 0. -/
theorem selectLinks_score_url_only (domain : PyStr)
    (visited links : List PyStr) (p : Int × PyStr)
    (hp : p ∈ selectLinks domain visited links) :
    p.1 = (if (("contact").toList <:+: lowerStr p.2) ∨
        (("about").toList <:+: lowerStr p.2) ∨
        (("team").toList <:+: lowerStr p.2) then (3 : Int) else 0) +
      (if (("support").toList <:+: lowerStr p.2) ∨
        (("help").toList <:+: lowerStr p.2) ∨
        (("reach").toList <:+: lowerStr p.2) then 2 else 0) := by
  obtain ⟨_, _, _, _, h4, _⟩ := mem_selectLinks hp
  rw [h4]
  simp only [score_page_relevance]
  rw [if_neg (by decide :
    ¬ ((("contact us").toList <:+: lowerStr ([] : PyStr)) ∨
       (("get in touch").toList <:+: lowerStr ([] : PyStr))))]
  rw [if_neg (by decide : ¬ '@' ∈ ([] : PyStr))]
  split_ifs <;> omega

def c10Domain : PyStr := ("e").toList

def c10Link : PyStr := ("http://e/team").toList

/-- Witness for C10 at a concrete input. -/
theorem selectLinks_score_url_only_witness :
    ((3 : Int), c10Link).1 =
      (if (("contact").toList <:+: lowerStr ((3 : Int), c10Link).2) ∨
          (("about").toList <:+: lowerStr ((3 : Int), c10Link).2) ∨
          (("team").toList <:+: lowerStr ((3 : Int), c10Link).2)
        then (3 : Int) else 0) +
      (if (("support").toList <:+: lowerStr ((3 : Int), c10Link).2) ∨
          (("help").toList <:+: lowerStr ((3 : Int), c10Link).2) ∨
          (("reach").toList <:+: lowerStr ((3 : Int), c10Link).2)
        then 2 else 0) :=
  selectLinks_score_url_only c10Domain [] [c10Link] (3, c10Link) (by decide)
